import Mathlib

/-!
Verification development for the delta-kernel data-skipping core
(`kernel/src/scan/data_skipping.rs`).

The file shallowly embeds the predicate rewriter `as_data_skipping_predicate`,
the filter constructor `DataSkippingFilter::new`, and the batch pipeline
`DataSkippingFilter::apply`, and proves the documented properties about them.
The expression module itself (`crate::expressions`) is not part of the core
under verification; its constructors and the three-valued evaluation semantics
of `is_null` / `null_if` are modelled from the specification.
-/

/-- Modelled from the spec: literal scalar values carried by `Expr::Literal`.
The rewriter never inspects the value, so a small closed universe suffices
for concrete witnesses. -/
inductive Scalar where
  | int (i : Int)
  | str (s : String)
  | bool (b : Bool)
  | null
deriving DecidableEq, Repr

/-- Binary operators of `crate::expressions::BinaryOperator` (modelled from the
spec and the operators named in `data_skipping.rs`). -/
inductive BinaryOperator where
  | Plus
  | Minus
  | LessThan
  | LessThanOrEqual
  | GreaterThan
  | GreaterThanOrEqual
  | Equal
  | NotEqual
  | Divide
  | Multiply
deriving DecidableEq, Repr

/-- Variadic operators of `crate::expressions::VariadicOperator`. -/
inductive VariadicOperator where
  | And
  | Or
deriving DecidableEq, Repr

/-- Modelled from the spec: the expression tree of `crate::expressions::Expression`,
with the variants the data-skipping core pattern-matches on (`Column`, `Literal`,
`BinaryOperation`, `VariadicOperation`) plus the constructors it uses to build
expressions (`struct_expr`, `is_null`, `null_if`). -/
inductive Expr where
  | Column (name : String)
  | Literal (v : Scalar)
  | BinaryOperation (op : BinaryOperator) (left right : Expr)
  | VariadicOperation (op : VariadicOperator) (exprs : List Expr)
  | Struct (exprs : List Expr)
  | IsNull (e : Expr)
  | NullIf (e if_e : Expr)

namespace Expr

/-- Modelled from the spec: `Expr::column`. -/
def column (n : String) : Expr := Column n

/-- Modelled from the spec: `Expr::binary`. -/
def binary (op : BinaryOperator) (a b : Expr) : Expr := BinaryOperation op a b

/-- Modelled from the spec: `Expr::lt`. -/
def lt (a b : Expr) : Expr := BinaryOperation BinaryOperator.LessThan a b

/-- Modelled from the spec: `Expr::le`. -/
def le (a b : Expr) : Expr := BinaryOperation BinaryOperator.LessThanOrEqual a b

/-- Modelled from the spec: `Expr::gt`. -/
def gt (a b : Expr) : Expr := BinaryOperation BinaryOperator.GreaterThan a b

/-- Modelled from the spec: `Expr::ge`. -/
def ge (a b : Expr) : Expr := BinaryOperation BinaryOperator.GreaterThanOrEqual a b

/-- Modelled from the spec: `Expr::and_from`. -/
def and_from (exprs : List Expr) : Expr := VariadicOperation VariadicOperator.And exprs

/-- Modelled from the spec: `Expr::or_from`. -/
def or_from (exprs : List Expr) : Expr := VariadicOperation VariadicOperator.Or exprs

/-- Modelled from the spec: `Expr::struct_expr`. -/
def struct_expr (exprs : List Expr) : Expr := Struct exprs

/-- Modelled from the spec: `Expr::is_null`. -/
def is_null (e : Expr) : Expr := IsNull e

/-- Modelled from the spec: `Expr::null_if`. -/
def null_if (e if_e : Expr) : Expr := NullIf e if_e

end Expr

/-- Source `commute` (`data_skipping.rs` lines 14-24): returns `op2` (if any) such that
`B op2 A` is equivalent to `A op B`. -/
def commute : BinaryOperator → Option BinaryOperator
  | BinaryOperator.GreaterThan => some BinaryOperator.LessThan
  | BinaryOperator.GreaterThanOrEqual => some BinaryOperator.LessThanOrEqual
  | BinaryOperator.LessThan => some BinaryOperator.GreaterThan
  | BinaryOperator.LessThanOrEqual => some BinaryOperator.GreaterThanOrEqual
  | BinaryOperator.Equal => some BinaryOperator.Equal
  | BinaryOperator.NotEqual => some BinaryOperator.NotEqual
  | BinaryOperator.Plus => some BinaryOperator.Plus
  | BinaryOperator.Multiply => some BinaryOperator.Multiply
  | _ => none

/-- The operand normalization of `as_data_skipping_predicate`
(`data_skipping.rs` lines 44-48): a binary operation is eligible only when one
side is a bare column and the other a literal; a literal on the left commutes
the operator. -/
def extract_col_val (op : BinaryOperator) (left right : Expr) :
    Option (BinaryOperator × String × Scalar) :=
  match left, right with
  | Expr.Column col, Expr.Literal val => some (op, col, val)
  | Expr.Literal val, Expr.Column col => (commute op).map (fun op2 => (op2, col, val))
  | _, _ => none

mutual

/-- Weighted size used to justify the recursion of `as_data_skipping_predicate`:
the `Equal` case recurses on a freshly built two-operand conjunction of
`LessThanOrEqual` comparisons, so `Equal` nodes get extra weight. -/
def exprSize : Expr → Nat
  | Expr.Column _ => 1
  | Expr.Literal _ => 1
  | Expr.BinaryOperation op l r =>
      1 + (if op = BinaryOperator.Equal then 8 else 0) + exprSize l + exprSize r
  | Expr.VariadicOperation _ exprs => 1 + exprListSize exprs
  | Expr.Struct exprs => 1 + exprListSize exprs
  | Expr.IsNull e => 1 + exprSize e
  | Expr.NullIf a b => 1 + exprSize a + exprSize b

/-- Weighted size of a list of expressions. -/
def exprListSize : List Expr → Nat
  | [] => 0
  | e :: es => 1 + exprSize e + exprListSize es

end

theorem exprSize_pos (e : Expr) : 1 ≤ exprSize e := by
  cases e <;> simp [exprSize] <;> omega

theorem commute_eq_some_equal {op : BinaryOperator}
    (h : commute op = some BinaryOperator.Equal) : op = BinaryOperator.Equal := by
  cases op <;> simp_all [commute]

theorem extract_col_val_equal {op : BinaryOperator} {l r : Expr} {c : String}
    {v : Scalar} (h : extract_col_val op l r = some (BinaryOperator.Equal, c, v)) :
    op = BinaryOperator.Equal := by
  cases l <;> cases r <;> simp_all [extract_col_val]
  obtain ⟨op2, hop2, h2, _, _⟩ := h
  exact commute_eq_some_equal (h2 ▸ hop2)

mutual

/-- Source `as_data_skipping_predicate` (`data_skipping.rs` lines 38-93): rewrites a
predicate over table columns into a predicate over `minValues` / `maxValues`
statistics columns, returning `none` when the expression is ineligible. -/
def as_data_skipping_predicate : Expr → Option Expr
  | Expr.BinaryOperation op left right =>
    match h : extract_col_val op left right with
    | none => none
    | some (op2, col, val) =>
      match op2 with
      | BinaryOperator.LessThan =>
          some (Expr.binary op2 (Expr.Column ("minValues." ++ col)) (Expr.Literal val))
      | BinaryOperator.LessThanOrEqual =>
          some (Expr.binary op2 (Expr.Column ("minValues." ++ col)) (Expr.Literal val))
      | BinaryOperator.GreaterThan =>
          some (Expr.binary op2 (Expr.Column ("maxValues." ++ col)) (Expr.Literal val))
      | BinaryOperator.GreaterThanOrEqual =>
          some (Expr.binary op2 (Expr.Column ("maxValues." ++ col)) (Expr.Literal val))
      | BinaryOperator.Equal =>
          as_data_skipping_predicate (Expr.and_from
            [Expr.le (Expr.Column col) (Expr.Literal val),
             Expr.le (Expr.Literal val) (Expr.Column col)])
      | BinaryOperator.NotEqual =>
          some (Expr.or_from
            [Expr.gt (Expr.Column ("minValues." ++ col)) (Expr.Literal val),
             Expr.lt (Expr.Column ("maxValues." ++ col)) (Expr.Literal val)])
      | _ => none
  | Expr.VariadicOperation VariadicOperator.And exprs =>
      some (Expr.VariadicOperation VariadicOperator.And (rewrite_and_operands exprs))
  | Expr.VariadicOperation VariadicOperator.Or exprs =>
      (rewrite_or_operands exprs).map (Expr.VariadicOperation VariadicOperator.Or)
  | _ => none
termination_by e => exprSize e
decreasing_by
  all_goals first
    | (have hop := extract_col_val_equal h
       subst hop
       have hl := exprSize_pos left
       have hr := exprSize_pos right
       simp [exprSize, exprListSize, Expr.and_from, Expr.le]
       omega)
    | (simp [exprSize, exprListSize]
       omega)
    | simp [exprSize, exprListSize]

/-- The `AND` arm of `as_data_skipping_predicate` (lines 71-80): the
`filter_map` that rewrites each operand and drops ineligible ones. -/
def rewrite_and_operands : List Expr → List Expr
  | [] => []
  | e :: es =>
    match as_data_skipping_predicate e with
    | some r => r :: rewrite_and_operands es
    | none => rewrite_and_operands es
termination_by es => exprListSize es
decreasing_by
  all_goals first
    | (simp [exprSize, exprListSize]
       omega)
    | simp [exprSize, exprListSize]

/-- The `OR` arm of `as_data_skipping_predicate` (lines 81-90): the
all-or-nothing `collect` over `Option`. -/
def rewrite_or_operands : List Expr → Option (List Expr)
  | [] => some []
  | e :: es =>
    match as_data_skipping_predicate e, rewrite_or_operands es with
    | some r, some rs => some (r :: rs)
    | _, _ => none
termination_by es => exprListSize es
decreasing_by
  all_goals first
    | (simp [exprSize, exprListSize]
       omega)
    | simp [exprSize, exprListSize]

end

/-! ## Schema model and `DataSkippingFilter::new` -/

mutual

/-- Modelled from the spec: `crate::schema::DataType` (note: primitive types are
opaque to this core; only struct nesting matters for the statistics schema). -/
inductive DataType where
  | BOOLEAN : DataType
  | STRING : DataType
  | primitive (s : String) : DataType
  | struct_ (fields : List StructField) : DataType

/-- Modelled from the spec: `crate::schema::StructField`, a named, typed,
nullable field. -/
inductive StructField where
  | mk (name : String) (dataType : DataType) (nullable : Bool) : StructField

end

/-- Field name projection of `StructField`. -/
def StructField.name : StructField → String
  | StructField.mk n _ _ => n

mutual

/-- Modelled from the spec: `Expression::references`, the set of column names
referenced by a predicate (represented as a list; only membership is used). -/
def references : Expr → List String
  | Expr.Column n => [n]
  | Expr.Literal _ => []
  | Expr.BinaryOperation _ l r => references l ++ references r
  | Expr.VariadicOperation _ exprs => referencesList exprs
  | Expr.Struct exprs => referencesList exprs
  | Expr.IsNull e => references e
  | Expr.NullIf a b => references a ++ references b
termination_by e => exprSize e
decreasing_by
  all_goals first
    | (simp [exprSize, exprListSize]
       omega)
    | simp [exprSize, exprListSize]

/-- List version of `references`. -/
def referencesList : List Expr → List String
  | [] => []
  | e :: es => references e ++ referencesList es
termination_by es => exprListSize es
decreasing_by
  all_goals first
    | (simp [exprSize, exprListSize]
       omega)
    | simp [exprSize, exprListSize]

end

/-- The construction-time output of `DataSkippingFilter::new`: the derived
statistics schema and the skip-predicate expression handed to the engine's
expression-evaluator factory. (Evaluator compilation itself is engine-side and
total — `get_evaluator` cannot fail — so it is not part of the `Option`
decision.) -/
structure FilterPlan where
  stats_schema : List StructField
  skipping_expression : Expr

/-- Source `DataSkippingFilter::new` (`data_skipping.rs` lines 109-188): returns
`none` when the predicate is absent, when no table-schema field is referenced
by the predicate, or when the predicate rewriter fails; otherwise builds the
statistics schema (mirrored `minValues` / `maxValues` records over the
referenced fields) and the skip-predicate expression. -/
def DataSkippingFilter.new (table_schema : List StructField)
    (predicate : Option Expr) : Option FilterPlan :=
  match predicate with
  | none => none
  | some predicate =>
    let field_names := references predicate
    let data_fields := table_schema.filter (fun f => field_names.contains f.name)
    if data_fields.isEmpty then none
    else
      let stats_schema :=
        [StructField.mk "minValues" (DataType.struct_ data_fields) true,
         StructField.mk "maxValues" (DataType.struct_ data_fields) true]
      (as_data_skipping_predicate predicate).map (fun rewritten =>
        { stats_schema := stats_schema
          skipping_expression := Expr.struct_expr [rewritten] })

/-! ## Three-valued null normalization and the `apply` pipeline -/

/-- Source `FILTER_EXPR` (`data_skipping.rs` lines 118-121): the null-normalization
expression `is_null(null_if(predicate, predicate))`. -/
def FILTER_EXPR : Expr :=
  Expr.is_null (Expr.null_if (Expr.column "predicate") (Expr.column "predicate"))

/-- Source `STATS_EXPR` (`data_skipping.rs` line 122): projects the `add.stats`
column. -/
def STATS_EXPR : Expr := Expr.column "add.stats"

/-- Modelled from the spec: three-valued `null_if` on a nullable boolean — the
result is the first argument (the value) nulled out where the second argument
(the condition) is true: `null_if(x, x)` yields null when `x` is true and
otherwise passes `x` through (false stays false, null stays null). -/
def tv_null_if (value condition : Option Bool) : Option Bool :=
  match condition with
  | some true => none
  | _ => value

/-- Modelled from the spec: three-valued `is_null` — a non-nullable boolean
that is true exactly on null input. -/
def tv_is_null (a : Option Bool) : Bool := a.isNone

/-- Modelled from the spec: row-wise three-valued evaluation of the expression
fragment used by `FILTER_EXPR` (`Column`, `IsNull`, `NullIf`) over an
environment assigning a nullable boolean to each column; other expression
shapes are outside this fragment (`none` = not evaluable here). -/
def evalPredRow (env : String → Option Bool) : Expr → Option (Option Bool)
  | Expr.Column n => some (env n)
  | Expr.IsNull e => (evalPredRow env e).map (fun v => some (tv_is_null v))
  | Expr.NullIf a b => do
      let x ← evalPredRow env a
      let y ← evalPredRow env b
      pure (tv_null_if x y)
  | _ => none

/-- The boolean collapse computed by `FILTER_EXPR` on one row's skip-predicate
value: `is_null(null_if(p, p))`. -/
def filterExprCollapse (p : Option Bool) : Bool := tv_is_null (tv_null_if p p)

/-- Columnar values exchanged with the engine during `apply` (modelled from the
spec's capability interfaces): a string column of raw stats, a single-field
boolean struct column (the skip-predicate result), a plain boolean column (the
selection vector), or anything else. -/
inductive EngineData where
  | stringData (vals : List (Option String))
  | structData (preds : List (Option Bool))
  | boolData (vals : List Bool)
  | otherData

/-- The model of the compiled `filter_evaluator`: row-wise application of the
`FILTER_EXPR` collapse to the single-field skip-predicate struct column. -/
def filterEvalByExpr : EngineData → Except String EngineData
  | EngineData.structData preds =>
      Except.ok (EngineData.boolData (preds.map filterExprCollapse))
  | _ => Except.error "evaluation error"

/-- The runtime state of `DataSkippingFilter` (`data_skipping.rs` lines
95-101): the derived statistics schema plus the three compiled evaluators and
the JSON handler, modelled as abstract engine-supplied functions over columnar
values. -/
structure DataSkippingFilter (Row : Type) where
  stats_schema : List StructField
  select_stats_evaluator : List Row → Except String EngineData
  skipping_evaluator : EngineData → Except String EngineData
  filter_evaluator : EngineData → Except String EngineData
  json_handler : EngineData → List StructField → Except String EngineData

/-- Modelled from the spec: the columnar filter primitive
(`arrow_select::filter::filter_record_batch`) — requires the selection vector
to have one entry per row and retains, in original order, exactly the rows
whose entry is true. -/
def filter_record_batch {Row : Type} (batch : List Row) (sel : List Bool) :
    Except String (List Row) :=
  if sel.length = batch.length then
    Except.ok ((batch.zip sel).filterMap (fun p => if p.2 then some p.1 else none))
  else
    Except.error "filter length mismatch"

/-- Source `DataSkippingFilter::apply` (`data_skipping.rs` lines 190-219): extract the
raw stats strings, parse them, evaluate the skip predicate, downcast to a
struct column, null-normalize to a boolean selection vector, downcast, and
filter the original batch. -/
def DataSkippingFilter.apply {Row : Type} (f : DataSkippingFilter Row)
    (actions : List Row) : Except String (List Row) := do
  let stats ← f.select_stats_evaluator actions
  let parsed_stats ← f.json_handler stats f.stats_schema
  let skipping_predicate_val ← f.skipping_evaluator parsed_stats
  let skipping_predicate ← (match skipping_predicate_val with
    | EngineData.structData preds => Except.ok (EngineData.structData preds)
    | _ => Except.error "UnexpectedColumnType: Expected type StructArray.")
  let skipping_vector_val ← f.filter_evaluator skipping_predicate
  let skipping_vector ← (match skipping_vector_val with
    | EngineData.boolData v => Except.ok v
    | _ => Except.error "UnexpectedColumnType: Expected type BooleanArray.")
  filter_record_batch actions skipping_vector

/-! ## Helper lemmas about the rewriter -/

theorem asdsp_and_eq (exprs : List Expr) :
    as_data_skipping_predicate (Expr.VariadicOperation VariadicOperator.And exprs)
      = some (Expr.VariadicOperation VariadicOperator.And (rewrite_and_operands exprs)) := by
  simp [as_data_skipping_predicate]

theorem asdsp_or_eq (exprs : List Expr) :
    as_data_skipping_predicate (Expr.VariadicOperation VariadicOperator.Or exprs)
      = (rewrite_or_operands exprs).map (Expr.VariadicOperation VariadicOperator.Or) := by
  simp [as_data_skipping_predicate]

theorem rewrite_and_operands_eq_filterMap (es : List Expr) :
    rewrite_and_operands es = es.filterMap as_data_skipping_predicate := by
  induction es with
  | nil => simp [rewrite_and_operands]
  | cons e es ih =>
    cases h : as_data_skipping_predicate e <;>
      simp [rewrite_and_operands, h, ih, List.filterMap_cons]

theorem rewrite_and_operands_nil_of_all_none {es : List Expr}
    (h : ∀ e ∈ es, as_data_skipping_predicate e = none) :
    rewrite_and_operands es = [] := by
  induction es with
  | nil => simp [rewrite_and_operands]
  | cons e es ih =>
    have he := h e (by simp)
    simp only [rewrite_and_operands, he]
    exact ih (fun x hx => h x (by simp [hx]))

theorem rewrite_or_operands_eq_none_iff (es : List Expr) :
    rewrite_or_operands es = none ↔ ∃ e ∈ es, as_data_skipping_predicate e = none := by
  induction es with
  | nil => simp [rewrite_or_operands]
  | cons e es ih =>
    cases h : as_data_skipping_predicate e <;>
      cases h2 : rewrite_or_operands es <;>
        simp_all [rewrite_or_operands, h, h2]

theorem rewrite_or_operands_eq_some_iff (es l : List Expr) :
    rewrite_or_operands es = some l
      ↔ List.Forall₂ (fun e r => as_data_skipping_predicate e = some r) es l := by
  induction es generalizing l with
  | nil =>
    cases l <;> simp [rewrite_or_operands]
  | cons e es ih =>
    cases h : as_data_skipping_predicate e <;> cases h2 : rewrite_or_operands es
    · simp only [rewrite_or_operands, h, h2]
      constructor
      · intro hc; exact absurd hc (by simp)
      · intro hc; cases hc; simp_all
    · simp only [rewrite_or_operands, h]
      constructor
      · intro hc; exact absurd hc (by simp)
      · intro hc; cases hc; simp_all
    · simp only [rewrite_or_operands, h, h2]
      constructor
      · intro hc; exact absurd hc (by simp)
      · intro hc; cases hc with
        | cons hfst hrest => simp_all [← ih]
    · simp only [rewrite_or_operands, h, h2]
      cases l with
      | nil => simp
        [show ¬ List.Forall₂ (fun e r => as_data_skipping_predicate e = some r) (e :: es) [] from
          by intro hc; cases hc]
      | cons r rs =>
        constructor
        · intro hc
          obtain ⟨h1, h2'⟩ := by simpa using hc
          subst h1 h2'
          exact List.Forall₂.cons h ((ih _).mp h2)
        · intro hc
          cases hc with
          | cons hfst hrest =>
            have := (ih _).mpr hrest
            simp_all

/-! ## Claims about the predicate rewriter -/

/-- C6: for every comparison operator among `<`, `<=`, `>`, `>=`, `=`, `≠`,
rewriting the literal-on-left form `v op col` equals rewriting the commuted
column-on-left form `col op2 v`, where `>` and `<` are swapped, `>=` and `<=`
are swapped, and `=` / `≠` are unchanged. -/
theorem commutation_correctness (col : String) (v : Scalar) :
    (as_data_skipping_predicate
        (Expr.BinaryOperation BinaryOperator.LessThan (Expr.Literal v) (Expr.Column col))
      = as_data_skipping_predicate
        (Expr.BinaryOperation BinaryOperator.GreaterThan (Expr.Column col) (Expr.Literal v)))
  ∧ (as_data_skipping_predicate
        (Expr.BinaryOperation BinaryOperator.LessThanOrEqual (Expr.Literal v) (Expr.Column col))
      = as_data_skipping_predicate
        (Expr.BinaryOperation BinaryOperator.GreaterThanOrEqual (Expr.Column col) (Expr.Literal v)))
  ∧ (as_data_skipping_predicate
        (Expr.BinaryOperation BinaryOperator.GreaterThan (Expr.Literal v) (Expr.Column col))
      = as_data_skipping_predicate
        (Expr.BinaryOperation BinaryOperator.LessThan (Expr.Column col) (Expr.Literal v)))
  ∧ (as_data_skipping_predicate
        (Expr.BinaryOperation BinaryOperator.GreaterThanOrEqual (Expr.Literal v) (Expr.Column col))
      = as_data_skipping_predicate
        (Expr.BinaryOperation BinaryOperator.LessThanOrEqual (Expr.Column col) (Expr.Literal v)))
  ∧ (as_data_skipping_predicate
        (Expr.BinaryOperation BinaryOperator.Equal (Expr.Literal v) (Expr.Column col))
      = as_data_skipping_predicate
        (Expr.BinaryOperation BinaryOperator.Equal (Expr.Column col) (Expr.Literal v)))
  ∧ (as_data_skipping_predicate
        (Expr.BinaryOperation BinaryOperator.NotEqual (Expr.Literal v) (Expr.Column col))
      = as_data_skipping_predicate
        (Expr.BinaryOperation BinaryOperator.NotEqual (Expr.Column col) (Expr.Literal v))) := by
  refine ⟨?_, ?_, ?_, ?_, ?_, ?_⟩ <;>
    simp [as_data_skipping_predicate, extract_col_val, commute, Expr.binary,
      Expr.and_from, Expr.le, Expr.gt, Expr.lt, Expr.or_from, rewrite_and_operands]

/-- C5 counterexample: rewriting `a = 1` is not equal to rewriting the
conjunction `(minValues.a <= 1) AND (maxValues.a >= 1)` — rewriting the latter
prefixes the statistics paths a second time. -/
theorem equality_decomposition_counterexample :
    as_data_skipping_predicate
        (Expr.BinaryOperation BinaryOperator.Equal (Expr.column "a")
          (Expr.Literal (Scalar.int 1)))
      ≠ as_data_skipping_predicate
        (Expr.and_from
          [Expr.le (Expr.column "minValues.a") (Expr.Literal (Scalar.int 1)),
           Expr.ge (Expr.column "maxValues.a") (Expr.Literal (Scalar.int 1))]) := by
  simp [as_data_skipping_predicate, extract_col_val, commute, Expr.binary,
    Expr.and_from, Expr.le, Expr.ge, Expr.column, rewrite_and_operands]

/-- C5 (amended): rewriting `col = v` yields the conjunction
`(minValues.col <= v) AND (maxValues.col >= v)` directly, and equals rewriting
the conjunction `(col <= v) AND (v <= col)` over the original column. -/
theorem equality_decomposition_amended (col : String) (v : Scalar) :
    (as_data_skipping_predicate
        (Expr.BinaryOperation BinaryOperator.Equal (Expr.Column col) (Expr.Literal v))
      = some (Expr.and_from
          [Expr.le (Expr.Column ("minValues." ++ col)) (Expr.Literal v),
           Expr.ge (Expr.Column ("maxValues." ++ col)) (Expr.Literal v)]))
  ∧ (as_data_skipping_predicate
        (Expr.BinaryOperation BinaryOperator.Equal (Expr.Column col) (Expr.Literal v))
      = as_data_skipping_predicate
          (Expr.and_from
            [Expr.le (Expr.Column col) (Expr.Literal v),
             Expr.le (Expr.Literal v) (Expr.Column col)])) := by
  refine ⟨?_, ?_⟩ <;>
    simp [as_data_skipping_predicate, extract_col_val, commute, Expr.binary,
      Expr.and_from, Expr.le, Expr.ge, rewrite_and_operands]

/-- C3 counterexample: with `A` the eligible `a < 1` and `B` the ineligible
bare column `b`, rewriting `A AND B` is not equal to rewriting `A` alone — the
former stays a (one-operand) conjunction, the latter is the bare rewritten
comparison. -/
theorem and_partial_eligibility_counterexample :
    as_data_skipping_predicate
        (Expr.and_from
          [Expr.lt (Expr.column "a") (Expr.Literal (Scalar.int 1)), Expr.column "b"])
      ≠ as_data_skipping_predicate
        (Expr.lt (Expr.column "a") (Expr.Literal (Scalar.int 1))) := by
  simp [as_data_skipping_predicate, extract_col_val, commute, Expr.binary,
    Expr.and_from, Expr.lt, Expr.column, rewrite_and_operands]

/-- C3 (amended): when `A` rewrites to `a` and `B` fails to rewrite, rewriting
`A AND B` yields the conjunction containing exactly `a`, and equals rewriting
the conjunction of `A` alone (not the bare operand `A`). -/
theorem and_partial_eligibility_amended (A B a : Expr)
    (hA : as_data_skipping_predicate A = some a)
    (hB : as_data_skipping_predicate B = none) :
    (as_data_skipping_predicate (Expr.and_from [A, B]) = some (Expr.and_from [a]))
  ∧ (as_data_skipping_predicate (Expr.and_from [A, B])
      = as_data_skipping_predicate (Expr.and_from [A])) := by
  have h1 := asdsp_and_eq [A, B]
  have h2 := asdsp_and_eq [A]
  simp only [Expr.and_from] at *
  rw [h1, h2, rewrite_and_operands_eq_filterMap, rewrite_and_operands_eq_filterMap]
  simp [List.filterMap_cons, hA, hB]

/-- C3 witness for `and_partial_eligibility_amended`, at `A = (a < 1)`,
`B = column b`. -/
theorem and_partial_eligibility_amended_witness :
    (as_data_skipping_predicate
        (Expr.and_from
          [Expr.lt (Expr.column "a") (Expr.Literal (Scalar.int 1)), Expr.column "b"])
      = some (Expr.and_from
          [Expr.lt (Expr.column "minValues.a") (Expr.Literal (Scalar.int 1))]))
  ∧ (as_data_skipping_predicate
        (Expr.and_from
          [Expr.lt (Expr.column "a") (Expr.Literal (Scalar.int 1)), Expr.column "b"])
      = as_data_skipping_predicate
        (Expr.and_from [Expr.lt (Expr.column "a") (Expr.Literal (Scalar.int 1))])) :=
  and_partial_eligibility_amended
    (Expr.lt (Expr.column "a") (Expr.Literal (Scalar.int 1)))
    (Expr.column "b")
    (Expr.lt (Expr.column "minValues.a") (Expr.Literal (Scalar.int 1)))
    (by simp [as_data_skipping_predicate, extract_col_val, Expr.lt, Expr.binary, Expr.column])
    (by simp [as_data_skipping_predicate, Expr.column])

/-- C2: rewriting a disjunction returns `none` as soon as any operand fails to
rewrite, and otherwise yields the disjunction of the rewritten operands. -/
theorem or_rewrite_all_or_nothing (exprs : List Expr) :
    ((∃ e ∈ exprs, as_data_skipping_predicate e = none) →
      as_data_skipping_predicate (Expr.VariadicOperation VariadicOperator.Or exprs) = none)
  ∧ (∀ rewritten : List Expr,
      List.Forall₂ (fun e r => as_data_skipping_predicate e = some r) exprs rewritten →
      as_data_skipping_predicate (Expr.VariadicOperation VariadicOperator.Or exprs)
        = some (Expr.VariadicOperation VariadicOperator.Or rewritten)) := by
  refine ⟨fun h => ?_, fun rewritten h => ?_⟩
  · rw [asdsp_or_eq, (rewrite_or_operands_eq_none_iff exprs).mpr h]
    rfl
  · rw [asdsp_or_eq, (rewrite_or_operands_eq_some_iff exprs rewritten).mpr h]
    rfl

/-- C2 witness for `or_rewrite_all_or_nothing`: an `OR` with the ineligible
operand `column b` rewrites to `none`; an `OR` whose single operand `a < 1`
is eligible rewrites to the disjunction of the rewritten operand. -/
theorem or_rewrite_all_or_nothing_witness :
    (as_data_skipping_predicate
        (Expr.VariadicOperation VariadicOperator.Or [Expr.column "b"]) = none)
  ∧ (as_data_skipping_predicate
        (Expr.VariadicOperation VariadicOperator.Or
          [Expr.lt (Expr.column "a") (Expr.Literal (Scalar.int 1))])
      = some (Expr.VariadicOperation VariadicOperator.Or
          [Expr.lt (Expr.column "minValues.a") (Expr.Literal (Scalar.int 1))])) :=
  ⟨(or_rewrite_all_or_nothing [Expr.column "b"]).1
      ⟨Expr.column "b", by simp, by simp [as_data_skipping_predicate, Expr.column]⟩,
   (or_rewrite_all_or_nothing [Expr.lt (Expr.column "a") (Expr.Literal (Scalar.int 1))]).2
      [Expr.lt (Expr.column "minValues.a") (Expr.Literal (Scalar.int 1))]
      (List.Forall₂.cons
        (by simp [as_data_skipping_predicate, extract_col_val, Expr.lt, Expr.binary,
              Expr.column])
        List.Forall₂.nil)⟩

/-- C4: rewriting a conjunction never hard-fails — the result is always `some`
conjunction; in particular when every operand is ineligible the result is the
vacuously-true empty conjunction. -/
theorem and_rewrite_never_fails (exprs : List Expr) :
    (∃ l : List Expr,
      as_data_skipping_predicate (Expr.VariadicOperation VariadicOperator.And exprs)
        = some (Expr.VariadicOperation VariadicOperator.And l))
  ∧ ((∀ e ∈ exprs, as_data_skipping_predicate e = none) →
      as_data_skipping_predicate (Expr.VariadicOperation VariadicOperator.And exprs)
        = some (Expr.VariadicOperation VariadicOperator.And [])) := by
  refine ⟨⟨rewrite_and_operands exprs, asdsp_and_eq exprs⟩, fun h => ?_⟩
  rw [asdsp_and_eq, rewrite_and_operands_nil_of_all_none h]

/-- C4 witness for `and_rewrite_never_fails`: the conjunction whose only
operand is the ineligible bare column `b` rewrites to the empty (vacuously
true) conjunction rather than to `none`. -/
theorem and_rewrite_never_fails_witness :
    as_data_skipping_predicate
        (Expr.VariadicOperation VariadicOperator.And [Expr.column "b"])
      = some (Expr.VariadicOperation VariadicOperator.And []) :=
  (and_rewrite_never_fails [Expr.column "b"]).2
    (by
      intro e he
      simp only [List.mem_singleton] at he
      subst he
      simp [as_data_skipping_predicate, Expr.column])

/-- An order-preserving filtered rewrite: each eligible operand appears,
rewritten, in place; ineligible operands are dropped; nothing is reordered or
duplicated. -/
inductive FilteredRewrite : List Expr → List Expr → Prop where
  | nil : FilteredRewrite [] []
  | keep {e r : Expr} {es l : List Expr} :
      as_data_skipping_predicate e = some r → FilteredRewrite es l →
      FilteredRewrite (e :: es) (r :: l)
  | drop {e : Expr} {es l : List Expr} :
      as_data_skipping_predicate e = none → FilteredRewrite es l →
      FilteredRewrite (e :: es) l

/-- C10: the operand list of a rewritten conjunction is exactly the sequence of
successful operand rewrites taken in their original relative order. -/
theorem and_operands_rewritten_in_order (exprs : List Expr) :
    ∃ l : List Expr,
      as_data_skipping_predicate (Expr.VariadicOperation VariadicOperator.And exprs)
        = some (Expr.VariadicOperation VariadicOperator.And l)
      ∧ FilteredRewrite exprs l := by
  refine ⟨rewrite_and_operands exprs, asdsp_and_eq exprs, ?_⟩
  induction exprs with
  | nil =>
    rw [show rewrite_and_operands [] = [] from by simp [rewrite_and_operands]]
    exact FilteredRewrite.nil
  | cons e es ih =>
    cases h : as_data_skipping_predicate e with
    | none =>
      rw [show rewrite_and_operands (e :: es) = rewrite_and_operands es from by
        simp [rewrite_and_operands, h]]
      exact FilteredRewrite.drop h ih
    | some r =>
      rw [show rewrite_and_operands (e :: es) = r :: rewrite_and_operands es from by
        simp [rewrite_and_operands, h]]
      exact FilteredRewrite.keep h ih

/-! ## Claims about filter construction -/

/-- C7: `DataSkippingFilter::new` returns `none` exactly when the predicate is
absent, when no table-schema field name is referenced by the predicate, or when
the predicate rewriter fails on the predicate. -/
theorem new_returns_none_iff (table_schema : List StructField)
    (predicate : Option Expr) :
    DataSkippingFilter.new table_schema predicate = none ↔
      (predicate = none
       ∨ (∃ p, predicate = some p ∧ ∀ f ∈ table_schema, f.name ∉ references p)
       ∨ (∃ p, predicate = some p ∧ as_data_skipping_predicate p = none)) := by
  cases predicate with
  | none => simp [DataSkippingFilter.new]
  | some p =>
    simp only [DataSkippingFilter.new, Option.some.injEq, reduceCtorEq, false_or,
      exists_eq_left']
    by_cases hempty : (table_schema.filter (fun f => (references p).contains f.name)).isEmpty
    · rw [if_pos hempty]
      simp only [true_iff]
      left
      intro f hf hname
      rw [List.isEmpty_iff, List.filter_eq_nil_iff] at hempty
      exact hempty f hf (by simpa using hname)
    · rw [if_neg hempty, Option.map_eq_none']
      constructor
      · intro hr; exact Or.inr hr
      · rintro (hrefs | hr)
        · exfalso
          apply hempty
          rw [List.isEmpty_iff, List.filter_eq_nil_iff]
          intro f hf
          simpa using hrefs f hf
        · exact hr

/-- C8: the statistics schema of a successfully constructed filter has exactly
the two fields `minValues` and `maxValues`, whose sub-records are the same
record over exactly the table-schema fields (with their types) whose names the
predicate references, in table-schema order. -/
theorem stats_schema_shape (table_schema : List StructField) (p : Expr)
    (plan : FilterPlan)
    (h : DataSkippingFilter.new table_schema (some p) = some plan) :
    ∃ data_fields : List StructField,
      plan.stats_schema
        = [StructField.mk "minValues" (DataType.struct_ data_fields) true,
           StructField.mk "maxValues" (DataType.struct_ data_fields) true]
      ∧ List.Sublist data_fields table_schema
      ∧ (∀ f, f ∈ data_fields ↔ f ∈ table_schema ∧ f.name ∈ references p) := by
  refine ⟨table_schema.filter (fun f => (references p).contains f.name), ?_,
    List.filter_sublist table_schema, ?_⟩
  · simp only [DataSkippingFilter.new] at h
    by_cases hempty :
        (table_schema.filter (fun f => (references p).contains f.name)).isEmpty
    · rw [if_pos hempty] at h
      exact absurd h (by simp)
    · rw [if_neg hempty] at h
      cases hr : as_data_skipping_predicate p with
      | none => rw [hr] at h; exact absurd h (by simp)
      | some r =>
        rw [hr] at h
        simp only [Option.map_some', Option.some.injEq] at h
        rw [← h]
  · intro f
    simp [List.mem_filter]

/-- C8 witness for `stats_schema_shape`, at a two-field table schema and the
predicate `a < 1` (which references only field `a`). -/
theorem stats_schema_shape_witness :
    ∃ data_fields : List StructField,
      (FilterPlan.mk
          [StructField.mk "minValues"
              (DataType.struct_ [StructField.mk "a" DataType.STRING true]) true,
           StructField.mk "maxValues"
              (DataType.struct_ [StructField.mk "a" DataType.STRING true]) true]
          (Expr.struct_expr
            [Expr.lt (Expr.Column "minValues.a") (Expr.Literal (Scalar.int 1))])).stats_schema
        = [StructField.mk "minValues" (DataType.struct_ data_fields) true,
           StructField.mk "maxValues" (DataType.struct_ data_fields) true]
      ∧ List.Sublist data_fields
          [StructField.mk "a" DataType.STRING true, StructField.mk "b" DataType.BOOLEAN true]
      ∧ (∀ f, f ∈ data_fields ↔
          f ∈ [StructField.mk "a" DataType.STRING true, StructField.mk "b" DataType.BOOLEAN true]
          ∧ f.name ∈ references (Expr.lt (Expr.column "a") (Expr.Literal (Scalar.int 1)))) :=
  stats_schema_shape
    [StructField.mk "a" DataType.STRING true, StructField.mk "b" DataType.BOOLEAN true]
    (Expr.lt (Expr.column "a") (Expr.Literal (Scalar.int 1)))
    (FilterPlan.mk
      [StructField.mk "minValues"
          (DataType.struct_ [StructField.mk "a" DataType.STRING true]) true,
       StructField.mk "maxValues"
          (DataType.struct_ [StructField.mk "a" DataType.STRING true]) true]
      (Expr.struct_expr
        [Expr.lt (Expr.Column "minValues.a") (Expr.Literal (Scalar.int 1))]))
    (by
      simp [DataSkippingFilter.new, references, StructField.name, Expr.lt, Expr.column,
        Expr.binary, as_data_skipping_predicate, extract_col_val, Expr.struct_expr,
        List.filter])

/-! ## Claims about the apply pipeline -/

theorem except_bind_ok {ε α β : Type} (a : α) (g : α → Except ε β) :
    (Except.ok a >>= g) = g a := rfl

theorem except_bind_error {ε α β : Type} (e : ε) (g : α → Except ε β) :
    ((Except.error e : Except ε α) >>= g) = Except.error e := rfl

theorem zip_filter_sublist {Row : Type} :
    ∀ (batch : List Row) (sel : List Bool),
      List.Sublist
        ((batch.zip sel).filterMap (fun p => if p.2 then some p.1 else none)) batch := by
  intro batch
  induction batch with
  | nil => intro sel; simp
  | cons b bs ih =>
    intro sel
    cases sel with
    | nil => simp
    | cons s ss =>
      cases s with
      | true => simpa [List.zip_cons_cons, List.filterMap_cons] using List.Sublist.cons₂ b (ih ss)
      | false => simpa [List.zip_cons_cons, List.filterMap_cons] using List.Sublist.cons b (ih ss)

theorem filter_record_batch_ok {Row : Type} {batch : List Row} {sel : List Bool}
    {out : List Row} (h : filter_record_batch batch sel = Except.ok out) :
    sel.length = batch.length
    ∧ out = (batch.zip sel).filterMap (fun p => if p.2 then some p.1 else none) := by
  unfold filter_record_batch at h
  by_cases hlen : sel.length = batch.length
  · rw [if_pos hlen] at h
    exact ⟨hlen, by simpa using h.symm⟩
  · rw [if_neg hlen] at h
    exact absurd h (by simp)

theorem mem_zip_filter_of_getElem {Row : Type} :
    ∀ (batch : List Row) (sel : List Bool) (i : Nat) (r : Row),
      batch[i]? = some r → sel[i]? = some true →
      r ∈ (batch.zip sel).filterMap (fun p => if p.2 then some p.1 else none) := by
  intro batch
  induction batch with
  | nil => intro sel i r hb _; simp at hb
  | cons b bs ih =>
    intro sel i r hb hs
    cases sel with
    | nil => simp at hs
    | cons s ss =>
      cases i with
      | zero =>
        simp only [List.getElem?_cons_zero, Option.some.injEq] at hb hs
        subst hb hs
        simp [List.zip_cons_cons, List.filterMap_cons]
      | succ n =>
        simp only [List.getElem?_cons_succ] at hb hs
        have hmem := ih ss n r hb hs
        cases s with
        | true => simp only [List.zip_cons_cons, List.filterMap_cons]; simp [hmem]
        | false => simpa [List.zip_cons_cons, List.filterMap_cons] using hmem

/-- C9: whenever `apply` succeeds, the output batch is the columnar filter
primitive applied to the original input batch with the boolean selection vector
computed by the evaluator pipeline (stats extraction, JSON parsing, skip
predicate, null normalization), and the output is a subsequence of the
untouched input. -/
theorem apply_filters_original_batch (Row : Type) (f : DataSkippingFilter Row)
    (actions out : List Row) (h : f.apply actions = Except.ok out) :
    ∃ (stats parsed : EngineData) (preds : List (Option Bool)) (sel : List Bool),
      f.select_stats_evaluator actions = Except.ok stats
      ∧ f.json_handler stats f.stats_schema = Except.ok parsed
      ∧ f.skipping_evaluator parsed = Except.ok (EngineData.structData preds)
      ∧ f.filter_evaluator (EngineData.structData preds)
          = Except.ok (EngineData.boolData sel)
      ∧ filter_record_batch actions sel = Except.ok out
      ∧ List.Sublist out actions := by
  simp only [DataSkippingFilter.apply] at h
  cases h1 : f.select_stats_evaluator actions with
  | error e => simp only [h1, except_bind_error] at h; simp at h
  | ok stats =>
    simp only [h1, except_bind_ok] at h
    cases h2 : f.json_handler stats f.stats_schema with
    | error e => simp only [h2, except_bind_error] at h; simp at h
    | ok parsed =>
      simp only [h2, except_bind_ok] at h
      cases h3 : f.skipping_evaluator parsed with
      | error e => simp only [h3, except_bind_error] at h; simp at h
      | ok spv =>
        simp only [h3, except_bind_ok] at h
        cases spv with
        | structData preds =>
          simp only [except_bind_ok] at h
          cases h4 : f.filter_evaluator (EngineData.structData preds) with
          | error e => simp only [h4, except_bind_error] at h; simp at h
          | ok svv =>
            simp only [h4, except_bind_ok] at h
            cases svv with
            | boolData sel =>
              simp only [except_bind_ok] at h
              have hsub : List.Sublist out actions := by
                obtain ⟨-, hout⟩ := filter_record_batch_ok h
                rw [hout]
                exact zip_filter_sublist actions sel
              exact ⟨stats, parsed, preds, sel, rfl, h2, h3, h4, h, hsub⟩
            | stringData vals => simp only [except_bind_error] at h; simp at h
            | structData p2 => simp only [except_bind_error] at h; simp at h
            | otherData => simp only [except_bind_error] at h; simp at h
        | stringData vals => simp only [except_bind_error] at h; simp at h
        | boolData vals => simp only [except_bind_error] at h; simp at h
        | otherData => simp only [except_bind_error] at h; simp at h

/-- A concrete two-row filter used to witness `apply_filters_original_batch`:
the skip predicate evaluates to `false` on the first row (skip) and `true` on
the second (keep). -/
def exampleApplyFilter : DataSkippingFilter Nat where
  stats_schema := []
  select_stats_evaluator := fun _ => Except.ok (EngineData.stringData [none, none])
  skipping_evaluator := fun _ => Except.ok (EngineData.structData [some false, some true])
  filter_evaluator := filterEvalByExpr
  json_handler := fun _ _ => Except.ok EngineData.otherData

/-- C9 witness for `apply_filters_original_batch`, at a concrete two-row
batch. -/
theorem apply_filters_original_batch_witness :
    ∃ (stats parsed : EngineData) (preds : List (Option Bool)) (sel : List Bool),
      exampleApplyFilter.select_stats_evaluator [10, 20] = Except.ok stats
      ∧ exampleApplyFilter.json_handler stats exampleApplyFilter.stats_schema
          = Except.ok parsed
      ∧ exampleApplyFilter.skipping_evaluator parsed
          = Except.ok (EngineData.structData preds)
      ∧ exampleApplyFilter.filter_evaluator (EngineData.structData preds)
          = Except.ok (EngineData.boolData sel)
      ∧ filter_record_batch [10, 20] sel = Except.ok [20]
      ∧ List.Sublist [20] [10, 20] :=
  apply_filters_original_batch Nat exampleApplyFilter [10, 20] [20] rfl

/-- C1: the null-normalization expression `is_null(null_if(predicate,
predicate))` collapses the three-valued skip-predicate result with `true →
true` (keep), `false → false` (skip) and `null → true` (keep); consequently,
in any successful `apply` run whose filter evaluator implements this
expression, every file row whose skip-predicate value is null is retained in
the output. -/
theorem filter_expr_null_normalization :
    (∀ env : String → Option Bool,
      evalPredRow env FILTER_EXPR = some (some (filterExprCollapse (env "predicate"))))
  ∧ (filterExprCollapse (some true) = true
      ∧ filterExprCollapse (some false) = false
      ∧ filterExprCollapse none = true)
  ∧ (∀ (Row : Type) (f : DataSkippingFilter Row) (actions out : List Row)
        (stats parsed : EngineData) (preds : List (Option Bool)),
      f.filter_evaluator = filterEvalByExpr →
      f.select_stats_evaluator actions = Except.ok stats →
      f.json_handler stats f.stats_schema = Except.ok parsed →
      f.skipping_evaluator parsed = Except.ok (EngineData.structData preds) →
      f.apply actions = Except.ok out →
      ∀ (i : Nat) (r : Row), preds[i]? = some none → actions[i]? = some r → r ∈ out) := by
  refine ⟨fun env => rfl, ⟨rfl, rfl, rfl⟩, ?_⟩
  intro Row f actions out stats parsed preds hfe h1 h2 h3 happ i r hpred hact
  simp only [DataSkippingFilter.apply, h1, h2, h3, except_bind_ok, hfe,
    filterEvalByExpr] at happ
  obtain ⟨-, hout⟩ := filter_record_batch_ok happ
  rw [hout]
  refine mem_zip_filter_of_getElem actions (preds.map filterExprCollapse) i r hact ?_
  rw [List.getElem?_map, hpred]
  rfl

/-- C1 witness for `filter_expr_null_normalization`: a one-row batch whose
statistics are missing (skip-predicate value null) keeps its row. -/
def exampleNullStatsFilter : DataSkippingFilter Nat where
  stats_schema := []
  select_stats_evaluator := fun _ => Except.ok (EngineData.stringData [none])
  skipping_evaluator := fun _ => Except.ok (EngineData.structData [none])
  filter_evaluator := filterEvalByExpr
  json_handler := fun _ _ => Except.ok EngineData.otherData

/-- C1 witness: applying `filter_expr_null_normalization` to the concrete
one-row filter with null statistics shows the row survives. -/
theorem filter_expr_null_normalization_witness : (7 : Nat) ∈ ([7] : List Nat) :=
  filter_expr_null_normalization.2.2 Nat exampleNullStatsFilter [7] [7]
    (EngineData.stringData [none]) EngineData.otherData [none]
    rfl rfl rfl rfl rfl 0 7 rfl rfl
